import Mathlib

/-!
Verification development for the transcript-processing pipeline in
`pdf_processing_v4.py`.

Texts are modelled as `List Char` (a Python `str` is a sequence of code
points).  Each Python function is embedded as an executable Lean function
over `List Char`; a `re.sub` call is embedded as a left-to-right,
non-overlapping scan that, at each position, attempts the concrete pattern
(with Python's greedy/backtracking semantics hand-compiled for that fixed
pattern) and otherwise advances one character.  Character classes use the
ASCII fragment of Python's `\s`/`\w` (all inputs in this development are
ASCII).  Scanners take a fuel argument (always instantiated with the text
length) so that all recursion is structural and kernel-reducible.
-/

namespace PdfV4

/-! ### Character classes (ASCII fragment of Python `\s`, `\w`, `[A-Z]`, ...) -/

def pyIsWs (c : Char) : Bool :=
  c == ' ' || c == '\t' || c == '\n' || c == '\x0d' || c == '\x0b' || c == '\x0c'

def isUpperAZ (c : Char) : Bool := 'A' ≤ c && c ≤ 'Z'

def isLowerAZ (c : Char) : Bool := 'a' ≤ c && c ≤ 'z'

def isDigit09 (c : Char) : Bool := '0' ≤ c && c ≤ '9'

def isAlphaAZ (c : Char) : Bool := isUpperAZ c || isLowerAZ c

/-- Python `\w` (ASCII fragment): letters, digits, underscore. -/
def isWordCh (c : Char) : Bool := isAlphaAZ c || isDigit09 c || c == '_'

/-- Length of the longest prefix of `s` whose characters satisfy `p`. -/
def runLen (p : Char → Bool) (s : List Char) : Nat := (s.takeWhile p).length

/-! ### Generic non-overlapping substitution scanners.

`rewriteF m fuel s` scans `s` left to right.  At each position the matcher
`m` either fails (`none`: emit one character and continue) or returns
`some (rep, k)`: the match consumed `k + 1` characters, which are replaced
by `rep`, and scanning resumes after the match (Python `re.sub`
semantics).  `fuel` only needs to be `≥ s.length`. -/

def rewriteF (m : List Char → Option (List Char × Nat)) : Nat → List Char → List Char
  | 0, s => s
  | _, [] => []
  | fuel + 1, c :: rest =>
    match m (c :: rest) with
    | some (rep, k) => rep ++ rewriteF m fuel (rest.drop k)
    | none => c :: rewriteF m fuel rest

def rewrite (m : List Char → Option (List Char × Nat)) (s : List Char) : List Char :=
  rewriteF m s.length s

/-- Variant of `rewriteF` for patterns with a look-behind: the matcher also
receives the character of the original text just before the current
position (`none` at the start of the text). -/
def rewriteCtxF (m : Option Char → List Char → Option (List Char × Nat)) :
    Nat → Option Char → List Char → List Char
  | 0, _, s => s
  | _, _, [] => []
  | fuel + 1, prev, c :: rest =>
    match m prev (c :: rest) with
    | some (rep, k) => rep ++ rewriteCtxF m fuel (some ((c :: rest).getD k c)) (rest.drop k)
    | none => c :: rewriteCtxF m fuel (some c) rest

def rewriteCtx (m : Option Char → List Char → Option (List Char × Nat)) (s : List Char) :
    List Char :=
  rewriteCtxF m s.length none s

/-- Match the literal `pat` at the head of `s`; on success return the rest. -/
def matchLit : List Char → List Char → Option (List Char)
  | [], s => some s
  | _, [] => none
  | p :: ps, c :: cs => if p == c then matchLit ps cs else none

/-- Case-insensitive (ASCII) literal match at the head of `s`. -/
def matchLitCI : List Char → List Char → Option (List Char)
  | [], s => some s
  | _, [] => none
  | p :: ps, c :: cs => if p.toLower == c.toLower then matchLitCI ps cs else none

/-- Python `str.replace(pat, rep)` (all occurrences, left to right);
`pat` is assumed nonempty, as in every use below. -/
def strReplace (s pat rep : List Char) : List Char :=
  rewrite (fun t =>
    match matchLit pat t with
    | some _ => if pat.isEmpty then none else some (rep, pat.length - 1)
    | none => none) s

/-- Python `str.strip()` (ASCII whitespace). -/
def pyStrip (s : List Char) : List Char :=
  ((s.dropWhile pyIsWs).reverse.dropWhile pyIsWs).reverse

/-- `re.sub(r'\s+', ' ', s)`: collapse every whitespace run to one space. -/
def collapseWs (s : List Char) : List Char :=
  rewrite (fun t =>
    let w := runLen pyIsWs t
    if w = 0 then none else some ([' '], w - 1)) s

/-- Python slicing `s[a:b]` for `0 ≤ a, b`. -/
def slice (s : List Char) (a b : Nat) : List Char := (s.drop a).take (b - a)

/-- All positions at which `pat` occurs in `text`, ascending.  This models
the `text.find(attribution, start)` / `start = pos + 1` loop of
`get_utterances`, which enumerates every (possibly overlapping) literal
occurrence in ascending order. -/
def occurrencesOf (text pat : List Char) : List Nat :=
  (List.range (text.length + 1)).filter (fun i => (matchLit pat (text.drop i)).isSome)

/-- Python `s.split('\n')` (keeps empty pieces). -/
def splitOnNl : List Char → List (List Char)
  | [] => [[]]
  | c :: rest =>
    match splitOnNl rest with
    | [] => [[c]]
    | h :: t => if c == '\n' then [] :: h :: t else (c :: h) :: t

/-- Python `s.split()` (no separator: split on whitespace runs, dropping
empty pieces). -/
def pySplitF : Nat → List Char → List (List Char)
  | 0, _ => []
  | fuel + 1, s =>
    match s.dropWhile pyIsWs with
    | [] => []
    | c :: r =>
      ((c :: r).takeWhile (fun d => !pyIsWs d)) ::
        pySplitF fuel ((c :: r).dropWhile (fun d => !pyIsWs d))

def pySplit (s : List Char) : List (List Char) := pySplitF s.length s

/-- Python `' '.join(s.split())`. -/
def joinSplit (s : List Char) : List Char := List.intercalate [' '] (pySplit s)

/-- Python `str.title()` (ASCII): a letter is uppercased after a non-letter
and lowercased after a letter. -/
def pyTitleGo : Bool → List Char → List Char
  | _, [] => []
  | prevAlpha, c :: rest =>
    if isAlphaAZ c then
      (if prevAlpha then c.toLower else c.toUpper) :: pyTitleGo true rest
    else
      c :: pyTitleGo false rest

def pyTitle (s : List Char) : List Char := pyTitleGo false s

/-! ### `normalize_punctuation` -/

/-- The class `[,.;:!?]`. -/
def isPunct6 (c : Char) : Bool :=
  c == ',' || c == '.' || c == ';' || c == ':' || c == '!' || c == '?'

/-- `re.sub(r':(\w)', r': \1', s)`: add a space after a colon that is
directly followed by a word character. -/
def colonSpaceSub (s : List Char) : List Char :=
  rewrite (fun t =>
    match t with
    | ':' :: w :: _ => if isWordCh w then some ([':', ' ', w], 1) else none
    | _ => none) s

/-- `re.sub(r'(\w+)\s+:', r'\1:', s)`: remove space before a colon. -/
def wordColonSub (s : List Char) : List Char :=
  rewrite (fun t =>
    let r := runLen isWordCh t
    if r = 0 then none else
    let w := runLen pyIsWs (t.drop r)
    if w = 0 then none else
    match (t.drop r).drop w with
    | ':' :: _ => some (t.take r ++ [':'], r + w)
    | _ => none) s

/-- `re.sub(r'\s+([,.;:!?])\s+', ' ', s)`: delete isolated punctuation
marks surrounded by whitespace. -/
def isolatedPunctSub (s : List Char) : List Char :=
  rewrite (fun t =>
    let w1 := runLen pyIsWs t
    if w1 = 0 then none else
    match t.drop w1 with
    | c :: r2 =>
      if isPunct6 c then
        let w2 := runLen pyIsWs r2
        if w2 = 0 then none else some ([' '], w1 + w2)
      else none
    | [] => none) s

def normalize_punctuation (s : List Char) : List Char :=
  pyStrip (isolatedPunctSub (wordColonSub (colonSpaceSub s)))

/-! ### `optimize_text_tags` -/

/-- The class `[,.;:!?-]` used by the TEXT-tag rules. -/
def isPunct7 (c : Char) : Bool := isPunct6 c || c == '-'

/-- Matcher for `re.sub(tag + r'\s*' + clsChar + r'\s*' + tag, rep, s,
flags=re.IGNORECASE)` where the bracketed content is one character of
class `cls`. -/
def tagBracketChar (tag : List Char) (cls : Char → Bool) (rep : List Char) :
    List Char → Option (List Char × Nat) := fun t =>
  match matchLitCI tag t with
  | none => none
  | some r1 =>
    let w1 := runLen pyIsWs r1
    match r1.drop w1 with
    | c :: r2 =>
      if cls c then
        let w2 := runLen pyIsWs r2
        match matchLitCI tag (r2.drop w2) with
        | some _ => some (rep, tag.length + w1 + 1 + w2 + tag.length - 1)
        | none => none
      else none
    | [] => none

/-- Matcher for the `(\d+)` variant of the TEXT-tag rules. -/
def tagBracketDigits (tag rep : List Char) : List Char → Option (List Char × Nat) := fun t =>
  match matchLitCI tag t with
  | none => none
  | some r1 =>
    let w1 := runLen pyIsWs r1
    let d := runLen isDigit09 (r1.drop w1)
    if d = 0 then none else
    let r2 := (r1.drop w1).drop d
    let w2 := runLen pyIsWs r2
    match matchLitCI tag (r2.drop w2) with
    | some _ => some (rep, tag.length + w1 + d + w2 + tag.length - 1)
    | none => none

/-- For `re.sub(r'(<TAG_k>\s*){2,}', r'\1', s)`: count the greedy
repetitions of `tag` followed by optional whitespace; returns
(count, total consumed, start offset of the last repetition). -/
def tagRepsF (tag : List Char) : Nat → List Char → (Nat × Nat × Nat)
  | 0, _ => (0, 0, 0)
  | fuel + 1, t =>
    match matchLit tag t with
    | none => (0, 0, 0)
    | some r =>
      let w := runLen pyIsWs r
      let step := tag.length + w
      let p := tagRepsF tag fuel (r.drop w)
      if p.1 = 0 then (1, step, 0) else (p.1 + 1, step + p.2.1, step + p.2.2)

/-- Matcher for `re.sub(r'(tag\s*){2,}', r'\1', s)`: the whole run is
replaced by the text of its last repetition (the last captured group). -/
def tagRunCollapse (tag : List Char) : List Char → Option (List Char × Nat) := fun t =>
  let p := tagRepsF tag t.length t
  if 2 ≤ p.1 then some ((t.drop p.2.2).take (p.2.1 - p.2.2), p.2.1 - 1) else none

/-- `re.sub(r'>\s+<', '> <', s)`. -/
def gtWsLtSub (s : List Char) : List Char :=
  rewrite (fun t =>
    match t with
    | '>' :: r =>
      let w := runLen pyIsWs r
      if w = 0 then none else
      match r.drop w with
      | '<' :: _ => some ('>' :: ' ' :: ['<'], 1 + w)
      | _ => none
    | _ => none) s

/-- `re.sub(r'><', '> <', s)`. -/
def gtLtSub (s : List Char) : List Char :=
  rewrite (fun t =>
    match t with
    | '>' :: '<' :: _ => some ('>' :: ' ' :: ['<'], 1)
    | _ => none) s

def optimize_text_tags (s : List Char) : List Char :=
  let s := rewrite (tagBracketChar "<TAG_2>".data isAlphaAZ " <TAG_2> ".data) s
  let s := rewrite (tagBracketDigits "<TAG_2>".data " <TAG_2>".data) s
  let s := rewrite (tagBracketChar "<TAG_2>".data isPunct7 " <TAG_2>".data) s
  let s := rewrite (tagBracketChar "<TAG_3>".data isAlphaAZ " <TAG_3> ".data) s
  let s := rewrite (tagBracketDigits "<TAG_3>".data " <TAG_3>".data) s
  let s := rewrite (tagBracketChar "<TAG_3>".data isPunct7 " <TAG_3>".data) s
  let s := rewrite (tagBracketChar "<TAG_4>".data isAlphaAZ " <TAG_4> ".data) s
  let s := rewrite (tagBracketDigits "<TAG_4>".data " <TAG_4> ".data) s
  let s := rewrite (tagRunCollapse "<TAG_4>".data) s
  let s := rewrite (tagRunCollapse "<TAG_3>".data) s
  let s := rewrite (tagRunCollapse "<TAG_2>".data) s
  gtLtSub (gtWsLtSub s)

/-! ### `optimize_word_tags` -/

/-- The class `[:,.;?!]` used by the BOLD rules (no hyphen here). -/
def isPunctB (c : Char) : Bool :=
  c == ':' || c == ',' || c == '.' || c == ';' || c == '?' || c == '!'

/-- Matcher for `re.sub(r'<BOLD->\s*(x)\s*<-BOLD>', r' \1 ', s)` with `x`
one character of class `cls` (the tags are dropped, keeping the content
with one space on each side). -/
def boldBracketChar (cls : Char → Bool) : List Char → Option (List Char × Nat) := fun t =>
  match matchLit "<BOLD->".data t with
  | none => none
  | some r1 =>
    let w1 := runLen pyIsWs r1
    match r1.drop w1 with
    | c :: r2 =>
      if cls c then
        let w2 := runLen pyIsWs r2
        match matchLit "<-BOLD>".data (r2.drop w2) with
        | some _ => some ([' ', c, ' '], 7 + w1 + 1 + w2 + 7 - 1)
        | none => none
      else none
    | [] => none

/-- Matcher for the `(\d+)` variant of the BOLD rules. -/
def boldBracketDigits : List Char → Option (List Char × Nat) := fun t =>
  match matchLit "<BOLD->".data t with
  | none => none
  | some r1 =>
    let w1 := runLen pyIsWs r1
    let d := runLen isDigit09 (r1.drop w1)
    if d = 0 then none else
    let r2 := (r1.drop w1).drop d
    let w2 := runLen pyIsWs r2
    match matchLit "<-BOLD>".data (r2.drop w2) with
    | some _ => some ([' '] ++ (r1.drop w1).take d ++ [' '], 7 + w1 + d + w2 + 7 - 1)
    | none => none

/-- `re.sub('<-BOLD>\s*<BOLD->', '', s)`: merge adjacent bold spans. -/
def boldCloseOpenSub (s : List Char) : List Char :=
  rewrite (fun t =>
    match matchLit "<-BOLD>".data t with
    | none => none
    | some r =>
      let w := runLen pyIsWs r
      match matchLit "<BOLD->".data (r.drop w) with
      | some _ => some ([], 7 + w + 7 - 1)
      | none => none) s

def optimize_word_tags (s : List Char) : List Char :=
  let s := rewrite (boldBracketChar isPunctB) s
  let s := rewrite (boldBracketChar isAlphaAZ) s
  let s := rewrite boldBracketDigits s
  let s := boldCloseOpenSub s
  let s := gtWsLtSub s
  let s := gtLtSub s
  pyStrip (collapseWs s)

/-! ### `add_text_tags` and `clean_special_characters` -/

/-- The common-substitution dictionary of `clean_special_characters` (and
the first part of the one in `add_text_tags`).  The Python dict lists both
`'�'` and `'�'`, which are the same key (one entry, both map to
`''`). -/
def csReplacements : List (List Char × List Char) :=
  [("�".data, []),
   ("•".data, "•".data),
   ("‘".data, "'".data),
   ("’".data, "'".data),
   ("“".data, "\"".data),
   ("”".data, "\"".data),
   ("–".data, "-".data),
   ("—".data, "--".data),
   ("©".data, [])]

def clean_special_characters (s : List Char) : List Char :=
  csReplacements.foldl (fun acc pr => strReplace acc pr.1 pr.2) s

/-- The replacement dictionary of `add_text_tags` (the encoding round-trip
at the top of the function is the identity on well-formed strings). -/
def atReplacements : List (List Char × List Char) :=
  csReplacements ++
  [("\u00A0".data, " <NBSP> ".data),
   ("\x0c".data, " <PAGEBREAK> ".data),
   ("\n".data, " <TAG_2> ".data),
   ("\t".data, " <TAB> ".data)]

/-- `re.sub(r'[ ]{2,}', ' <TAG_3> ', s)`: runs of 2+ literal spaces. -/
def spaces2Sub (s : List Char) : List Char :=
  rewrite (fun t =>
    match t with
    | ' ' :: r =>
      let n := runLen (fun c => c == ' ') r
      if n = 0 then none else some (" <TAG_3> ".data, n)
    | _ => none) s

/-- `re.sub(r'<TAG_3>\s*<TAG_2>', ' <TAG_4> ', s)`. -/
def tag3tag2Sub (s : List Char) : List Char :=
  rewrite (fun t =>
    match matchLit "<TAG_3>".data t with
    | none => none
    | some r =>
      let w := runLen pyIsWs r
      match matchLit "<TAG_2>".data (r.drop w) with
      | some _ => some (" <TAG_4> ".data, 7 + w + 7 - 1)
      | none => none) s

def add_text_tags (s : List Char) : List Char :=
  let s := atReplacements.foldl (fun acc pr => strReplace acc pr.1 pr.2) s
  let s := spaces2Sub s
  let s := tag3tag2Sub s
  let s := gtWsLtSub s
  let s := gtLtSub s
  pyStrip (collapseWs s)

/-! ### `fix_tag_spacing` -/

/-- Match a sequence of literal characters, each followed by `\s*`;
returns the number of characters consumed. -/
def matchCharsWs : List Char → List Char → Option Nat
  | [], _ => some 0
  | c :: cs, t =>
    match t with
    | d :: r =>
      if c == d then
        let w := runLen pyIsWs r
        match matchCharsWs cs (r.drop w) with
        | some n => some (1 + w + n)
        | none => none
      else none
    | [] => none

/-- Matcher for `re.sub(r'<\s*T\s*A\s*G\s*_\s*(\d+)\s*>', r'<TAG_\1>', s)`. -/
def tagSpacingFix : List Char → Option (List Char × Nat) := fun t =>
  match matchCharsWs "<TAG_".data t with
  | none => none
  | some n =>
    let d := runLen isDigit09 (t.drop n)
    if d = 0 then none else
    let w2 := runLen pyIsWs ((t.drop n).drop d)
    match ((t.drop n).drop d).drop w2 with
    | '>' :: _ => some ("<TAG_".data ++ (t.drop n).take d ++ ['>'], n + d + w2)
    | _ => none

/-- Matcher for `re.sub(r'<\s*B\s*O\s*L\s*D\s*-\s*>', r'<BOLD->', s)`. -/
def boldOpenFix : List Char → Option (List Char × Nat) := fun t =>
  match matchCharsWs "<BOLD-".data t with
  | none => none
  | some n =>
    match t.drop n with
    | '>' :: _ => some ("<BOLD->".data, n)
    | _ => none

/-- Matcher for `re.sub(r'<\s*-\s*B\s*O\s*L\s*D\s*>', r'<-BOLD>', s)`. -/
def boldCloseFix : List Char → Option (List Char × Nat) := fun t =>
  match matchCharsWs "<-BOLD".data t with
  | none => none
  | some n =>
    match t.drop n with
    | '>' :: _ => some ("<-BOLD>".data, n)
    | _ => none

def fix_tag_spacing (s : List Char) : List Char :=
  rewrite boldCloseFix (rewrite boldOpenFix (rewrite tagSpacingFix s))

/-! ### `format_spaced_headers`

Pattern: `(?<!\S)(?<!<)(?<![\w-])([A-Z](?:\s+[A-Z]){2,})(?!\w)(?![^<]*>)(?!\S)`
with a replacement function.  The look-behinds jointly require the match to
start at the beginning of the text or after a whitespace character.  The
body greedily collects single uppercase letters separated by whitespace
runs and backtracks on the repetition count (never below 2 repetitions,
i.e. 3 letters) until the three look-aheads hold; `(?!\w)` together with
`(?!\S)` require the next character to be whitespace or the end of the
text, and `(?![^<]*>)` fails when a `>` occurs with no `<` before it. -/

/-- Offsets just after the 2nd, 3rd, ... letter of the greedy
`(?:\s+[A-Z])*` chain; `e` is the offset just after the previous letter
and `s` the text from that offset. -/
def chainEndsF : Nat → List Char → Nat → List Nat
  | 0, _, _ => []
  | fuel + 1, s, e =>
    let w := runLen pyIsWs s
    if w = 0 then [] else
    match s.drop w with
    | c :: _ =>
      if isUpperAZ c then (e + w + 1) :: chainEndsF fuel ((s.drop w).drop 1) (e + w + 1)
      else []
    | [] => []

/-- True when no `>` occurs before the first `<` (so the negative
look-ahead `(?![^<]*>)` succeeds). -/
def noGtBeforeLt : List Char → Bool
  | [] => true
  | '>' :: _ => false
  | '<' :: _ => true
  | _ :: r => noGtBeforeLt r

def fshLookAheadOk (rest : List Char) : Bool :=
  (match rest with
   | [] => true
   | c :: _ => pyIsWs c) && noGtBeforeLt rest

/-- `re.split(r'\s{2,}', s)`: split on whitespace runs of length 2+. -/
def splitWs2Go : Nat → List Char → List Char → List (List Char)
  | 0, acc, s => [acc.reverse ++ s]
  | _, acc, [] => [acc.reverse]
  | fuel + 1, acc, c :: r =>
    if pyIsWs c && (match r with | d :: _ => pyIsWs d | [] => false) then
      let w := runLen pyIsWs (c :: r)
      acc.reverse :: splitWs2Go fuel [] ((c :: r).drop w)
    else splitWs2Go fuel (c :: acc) r

def splitWs2 (s : List Char) : List (List Char) := splitWs2Go s.length [] s

/-- Is there a run of two adjacent whitespace characters (`re.search(r'\s{2,}', s)`)? -/
def hasWs2 : List Char → Bool
  | a :: b :: r => (pyIsWs a && pyIsWs b) || hasWs2 (b :: r)
  | _ => false

/-- `re.sub(r'\s+', '', word)`. -/
def removeWs (s : List Char) : List Char := s.filter (fun c => !pyIsWs c)

/-- `re.sub(r'(?<=[a-z0-9])(?=[A-Z])', ' ', s)`: insert a space between a
lowercase letter or digit and a following uppercase letter. -/
def insertLUS : List Char → List Char
  | [] => []
  | [c] => [c]
  | a :: b :: r =>
    if (isLowerAZ a || isDigit09 a) && isUpperAZ b then a :: ' ' :: insertLUS (b :: r)
    else a :: insertLUS (b :: r)

/-- `re.sub(r'(\d)\s+(\d)', r'\1\2', s)`: re-merge separated digit pairs. -/
def digitMergeSub (s : List Char) : List Char :=
  rewrite (fun t =>
    match t with
    | d1 :: r =>
      if isDigit09 d1 then
        let w := runLen pyIsWs r
        if w = 0 then none else
        match r.drop w with
        | d2 :: _ => if isDigit09 d2 then some ([d1, d2], 1 + w) else none
        | [] => none
      else none
    | [] => none) s

/-- The `process_header` replacement function of `format_spaced_headers`. -/
def processHeader (m : List Char) : List Char :=
  if hasWs2 m then List.intercalate [' '] ((splitWs2 m).map removeWs)
  else digitMergeSub (insertLUS (removeWs m))

def fshMatcher : Option Char → List Char → Option (List Char × Nat) := fun prev t =>
  let behindOk := match prev with | none => true | some p => pyIsWs p
  if !behindOk then none else
  match t with
  | c :: rest =>
    if isUpperAZ c then
      let ends := 1 :: chainEndsF rest.length rest 1
      match ((ends.drop 2).reverse).find? (fun e => fshLookAheadOk (t.drop e)) with
      | some e => some (processHeader (t.take e), e - 1)
      | none => none
    else none
  | [] => none

def format_spaced_headers (s : List Char) : List Char :=
  rewriteCtx fshMatcher s

/-! ### `remove_repeating_punctuation` -/

def isPunct3 (c : Char) : Bool := c == '.' || c == '!' || c == '?'

/-- How many times does `g` occur as an immediately repeated prefix of `s`? -/
def countPrefixRepsF (g : List Char) : Nat → List Char → Nat
  | 0, _ => 0
  | fuel + 1, s =>
    match matchLit g s with
    | some r => 1 + countPrefixRepsF g fuel r
    | none => 0

/-- Backtracking for `re.sub(r'([.!?](\s+))\1{2,}', '', s)`: with `c` the
punctuation character and `r` the text after it, try the group's
whitespace length from `wlen` downwards; on success return the total
number of characters matched. -/
def pass1Try (c : Char) (r : List Char) : Nat → Option Nat
  | 0 => none
  | w + 1 =>
    let g := c :: r.take (w + 1)
    let reps := countPrefixRepsF g r.length (r.drop (w + 1))
    if 2 ≤ reps then some ((w + 2) * (1 + reps)) else pass1Try c r w

def pass1Matcher : List Char → Option (List Char × Nat) := fun t =>
  match t with
  | c :: r =>
    if isPunct3 c then
      let wmax := runLen pyIsWs r
      if wmax = 0 then none else
      match pass1Try c r wmax with
      | some tot => some ([], tot - 1)
      | none => none
    else none
  | [] => none

def punctWsRepSub (s : List Char) : List Char := rewrite pass1Matcher s

/-- Matcher for `re.sub(r'([.!?])\1{2,}', '', s)`: contiguous runs of 3+
of the same punctuation character. -/
def pass2Matcher : List Char → Option (List Char × Nat) := fun t =>
  match t with
  | c :: r =>
    if isPunct3 c then
      let n := 1 + runLen (fun d => d == c) r
      if 3 ≤ n then some ([], n - 1) else none
    else none
  | [] => none

def punctRunSub (s : List Char) : List Char := rewrite pass2Matcher s

/-- Greedy repetitions of `[.]\s*`; returns (count, consumed). -/
def dotWsRepsF : Nat → List Char → (Nat × Nat)
  | 0, _ => (0, 0)
  | fuel + 1, t =>
    match t with
    | c :: r =>
      if c = '.' then
        let w := runLen pyIsWs r
        let p := dotWsRepsF fuel (r.drop w)
        (p.1 + 1, 1 + w + p.2)
      else (0, 0)
    | [] => (0, 0)

/-- Matcher for `re.sub(r'([.]\s*){2,}', '', s)`: note the `{2,}`, which
deletes a run of only two dots. -/
def pass3Matcher : List Char → Option (List Char × Nat) := fun t =>
  let p := dotWsRepsF t.length t
  if 2 ≤ p.1 then some ([], p.2 - 1) else none

def dotWsRunSub (s : List Char) : List Char := rewrite pass3Matcher s

def remove_repeating_punctuation (s : List Char) : List Char :=
  dotWsRunSub (punctRunSub (punctWsRepSub s))

/-! ### `normalize_adjacent_uppercase_words`

Patterns: `re.sub(r'\bOPERATOR\b', 'Operator', s)` followed by
`re.sub(r'\b([A-Z][A-Z\'\-]+)(\s+[A-Z]\.?\s+)?(\s+[A-Z][A-Z\'\-]+)\b', f, s)`
with `f` title-casing groups 1 and 3 and keeping group 2 verbatim. -/

def operatorMatcher : Option Char → List Char → Option (List Char × Nat) := fun prev t =>
  let bOk := match prev with | none => true | some p => !isWordCh p
  if !bOk then none else
  match matchLit "OPERATOR".data t with
  | some r =>
    match r with
    | [] => some ("Operator".data, 7)
    | c :: _ => if isWordCh c then none else some ("Operator".data, 7)
  | none => none

/-- The class `[A-Z\'\-]`. -/
def isNameCls (c : Char) : Bool := isUpperAZ c || c == '\'' || c == '-'

/-- Backtracking on the length of the final `[A-Z][A-Z\'\-]+` token so that
the trailing `\b` holds; `u` starts with the token; lengths are tried from
`tlen` downwards, never below 2. -/
def pickT (u : List Char) : Nat → Option Nat
  | 0 => none
  | 1 => none
  | tl + 2 =>
    let tlen := tl + 2
    let prevc := u.getD (tlen - 1) ' '
    let nextW := match (u.drop tlen).head? with | none => false | some d => isWordCh d
    if isWordCh prevc != nextW then some tlen else pickT u (tl + 1)

/-- Try group 3 (`\s+[A-Z][A-Z\'\-]+` with trailing `\b`) at offset `pos`
of `t`; returns the number of characters it consumes. -/
def nameG3 (t : List Char) (pos : Nat) : Option Nat :=
  let s := t.drop pos
  let w := runLen pyIsWs s
  if w = 0 then none else
  match s.drop w with
  | c :: r =>
    if isUpperAZ c then
      let rr := runLen isNameCls r
      if rr = 0 then none else
      match pickT (s.drop w) (1 + rr) with
      | some tlen => some (w + tlen)
      | none => none
    else none
  | [] => none

/-- Try groups 2 and 3 together (`(\s+[A-Z]\.?\s+)(\s+[A-Z][A-Z\'\-]+)`):
the two `\s+` must share the whitespace run after the middle initial, so
that run must have length at least 2 (group 2 keeps all but its last
character).  Returns `(end of group 2, end of group 3)` as offsets of `t`. -/
def nameG2G3 (t : List Char) (g1len : Nat) : Option (Nat × Nat) :=
  let s1 := t.drop g1len
  let w1 := runLen pyIsWs s1
  if w1 = 0 then none else
  match s1.drop w1 with
  | c :: r =>
    if !isUpperAZ c then none else
    let dotLen : Nat := match r with | '.' :: _ => 1 | _ => 0
    let afterInit := g1len + w1 + 1 + dotLen
    let gap := runLen pyIsWs (t.drop afterInit)
    if gap < 2 then none else
    let tokPos := afterInit + gap
    match t.drop tokPos with
    | d :: r2 =>
      if !isUpperAZ d then none else
      let rr := runLen isNameCls r2
      if rr = 0 then none else
      match pickT (t.drop tokPos) (1 + rr) with
      | some tlen => some (afterInit + gap - 1, tokPos + tlen)
      | none => none
    | [] => none
  | [] => none

def nameMatcher : Option Char → List Char → Option (List Char × Nat) := fun prev t =>
  let bOk := match prev with | none => true | some p => !isWordCh p
  if !bOk then none else
  match t with
  | c :: r =>
    if !isUpperAZ c then none else
    let r1 := runLen isNameCls r
    if r1 = 0 then none else
    let g1len := 1 + r1
    match nameG2G3 t g1len with
    | some pr =>
      some (pyTitle (t.take g1len) ++ slice t g1len pr.1 ++ pyTitle (slice t pr.1 pr.2),
            pr.2 - 1)
    | none =>
      match nameG3 t g1len with
      | some consumed =>
        some (pyTitle (t.take g1len) ++ pyTitle (slice t g1len (g1len + consumed)),
              g1len + consumed - 1)
      | none => none
  | [] => none

def normalize_adjacent_uppercase_words (s : List Char) : List Char :=
  rewriteCtx nameMatcher (rewriteCtx operatorMatcher s)

/-! ### The full Tag Normalizer pipeline, in the order given by the spec
(character substitution and marker seeding; tag-run optimization;
bold-span optimization; punctuation normalization; spaced-header
reconstruction; repeating-punctuation removal; marker-spelling repair). -/

def normalize (s : List Char) : List Char :=
  fix_tag_spacing (remove_repeating_punctuation (format_spaced_headers
    (normalize_punctuation (optimize_word_tags (optimize_text_tags (add_text_tags s))))))

/-! ### Extractor (`text_processing_pipeline`)

The PDF reader (`pymupdf`) is an external collaborator producing per-page
plain text; the per-page processing of `text_processing_pipeline` (from
`page.get_text` onwards) is pure and embedded here over a given list of
page texts. -/

/-- The class `[\s!"#$%&\'*+,-./:;<=>?@[\\\]^_\x60{|}~]` of
`re.sub(r'^[...]+', '', line)`: ASCII whitespace and all ASCII punctuation
except the two parentheses (codes 40 and 41). -/
def isLeadJunk (c : Char) : Bool :=
  pyIsWs c ||
    (let n := c.toNat
     (33 ≤ n && n ≤ 47 && n != 40 && n != 41) || (58 ≤ n && n ≤ 64) ||
       (91 ≤ n && n ≤ 96) || (123 ≤ n && n ≤ 126))

def stripLeadingJunk (l : List Char) : List Char := l.dropWhile isLeadJunk

/-- One line of the per-page loop: strip leading punctuation/whitespace,
then apply the name-casing heuristic. -/
def cleanedLine (line : List Char) : List Char :=
  normalize_adjacent_uppercase_words (stripLeadingJunk line)

/-- The body of the page loop of `text_processing_pipeline`: note that
`cleaned_lines_with_tags` receives every cleaned line (the
`len(cleaned_line.strip()) > 1` filter only feeds the unused
`cleaned_lines` list), and the page text joined into the output is
`'\n'.join(cleaned_lines_with_tags)` followed by `"\n<PAGE_BREAK>\n"`. -/
def process_page (page_text : List Char) : List Char :=
  let lines := splitOnNl (clean_special_characters page_text)
  let cleaned_lines_with_tags := lines.map (fun line => cleanedLine line ++ "<TAG_2>".data)
  List.intercalate ['\n'] cleaned_lines_with_tags ++ "\n<PAGE_BREAK>\n".data

def text_processing_pipeline (pages : List (List Char)) : List Char :=
  (pages.map process_page).foldl (fun acc p => acc ++ p) []

/-! ### `get_operator_attributions` -/

/-- `collectF m fuel s` models `re.finditer`: scan left to right, at each
position `m` either fails or returns `k` (the match consumed `k + 1`
characters); record the matched text and resume after it. -/
def collectF (m : List Char → Option Nat) : Nat → List Char → List (List Char)
  | 0, _ => []
  | _, [] => []
  | fuel + 1, c :: rest =>
    match m (c :: rest) with
    | some k => ((c :: rest).take (k + 1)) :: collectF m fuel (rest.drop k)
    | none => collectF m fuel rest

/-- Characters consumed by the greedy `(<[^>]+>)+` (0 when no repetition
matches). -/
def opTagReps : Nat → List Char → Nat
  | 0, _ => 0
  | fuel + 1, t =>
    match t with
    | '<' :: r =>
      let b := runLen (fun c => c != '>') r
      if b = 0 then 0 else
      match r.drop b with
      | '>' :: r2 => (1 + b + 1) + opTagReps fuel r2
      | _ => 0
    | _ => 0

/-- Matcher for `r'(<[^>]+>)+\s*Operator'`; returns `k` with the match
consuming `k + 1` characters. -/
def operatorAttrMatcher : List Char → Option Nat := fun t =>
  let reps := opTagReps t.length t
  if reps = 0 then none else
  let rest := t.drop reps
  let w := runLen pyIsWs rest
  match matchLit "Operator".data (rest.drop w) with
  | some _ => some (reps + w + 8 - 1)
  | none => none

/-- First-occurrence-order deduplication of characters.  This models
Python's `set(...)` elementwise; the `set` iteration order itself is
unspecified (hash-randomized), so theorems below only use
order-independent facts about this list. -/
def dedupChars (l : List Char) : List Char :=
  l.foldl (fun acc c => if acc.contains c then acc else acc ++ [c]) []

/-- `get_operator_attributions`: the function accumulates the formatted
report lines into the *string* `operator_attributions` and then returns
`list(set(operator_attributions))` — a list of the distinct characters of
that string, each a length-1 string. -/
def get_operator_attributions (text : List Char) : List (List Char) :=
  let ms := collectF operatorAttrMatcher text.length text
  let diag := (ms.map (fun m => "Operator with tags: ".data ++ m ++ ['\n'])).foldl
    (fun acc x => acc ++ x) []
  (dedupChars diag).map (fun c => [c])

/-! ### `remove_leading_duplicate_tags` -/

/-- The class `[A-Z_0-9]`. -/
def isTagCls (c : Char) : Bool := isUpperAZ c || isDigit09 c || c == '_'

/-- Characters consumed by the greedy `(<[A-Z_0-9]+>\s*)+` (0 when no
repetition matches). -/
def leadTagRepsF : Nat → List Char → Nat
  | 0, _ => 0
  | fuel + 1, t =>
    match t with
    | '<' :: r =>
      let b := runLen isTagCls r
      if b = 0 then 0 else
      match r.drop b with
      | '>' :: r2 =>
        let w := runLen pyIsWs r2
        (1 + b + 1 + w) + leadTagRepsF fuel (r2.drop w)
      | _ => 0
    | _ => 0

/-- Length of `group(1)` of `re.match(r'^(\s*(<[A-Z_0-9]+>\s*)+)', a)`,
or `none` when there is no match. -/
def leadingTagSection (a : List Char) : Option Nat :=
  let w0 := runLen pyIsWs a
  let reps := leadTagRepsF a.length (a.drop w0)
  if reps = 0 then none else some (w0 + reps)

/-- `re.findall(r'<[A-Z_0-9]+>', s)`. -/
def findTagsF : Nat → List Char → List (List Char)
  | 0, _ => []
  | _, [] => []
  | fuel + 1, c :: r =>
    if c == '<' then
      let b := runLen isTagCls r
      if b ≠ 0 then
        match r.drop b with
        | '>' :: r2 => ('<' :: (r.take b ++ ['>'])) :: findTagsF fuel r2
        | _ => findTagsF fuel r
      else findTagsF fuel r
    else findTagsF fuel r

/-- Remove adjacent duplicates (Python keeps a tag when it differs from
the previously kept one). -/
def dedupAdj : List (List Char) → List (List Char)
  | [] => []
  | [x] => [x]
  | x :: y :: r => if x == y then dedupAdj (y :: r) else x :: dedupAdj (y :: r)

def remove_leading_duplicate_tags (a : List Char) : List Char :=
  match leadingTagSection a with
  | none => a
  | some n =>
    let leading := a.take n
    let uniq := dedupAdj (findTagsF leading.length leading)
    -- `attribution.replace(leading, new, 1)`: `leading` is a prefix of the
    -- attribution, so its first occurrence starts at position 0.
    (List.intercalate [' '] uniq ++ [' ']) ++ a.drop n

/-! ### `get_utterances`

The resolver response is modelled with `Option` fields (`none` = the key
is absent, matching `dict.get`).  `participant.get("speaker_name_variants",
["Unknown"])[0]` raises `IndexError` when the key is present with an empty
list; the embedding returns `Except.error ()` there. -/

structure Participant where
  speaker_name_variants : Option (List (List Char)) := none
  speaker_attributions : Option (List (List Char)) := none
deriving Repr, DecidableEq

structure ParsedJson where
  participants : Option (List Participant) := none
deriving Repr, DecidableEq

structure ApiResponse where
  parsed_json : Option ParsedJson := none
deriving Repr, DecidableEq

/-- An utterance record (`{'speaker', 'utterance'}` dict, with `uuid`
present only when `clean_utterances` added it). -/
structure URec where
  speaker : List Char
  utterance : List Char
  uuid : Option (List Char) := none
deriving Repr, DecidableEq

/-- One literal occurrence of an attribution string in the document. -/
structure Occurrence where
  speaker_name : List Char
  start : Nat
  stop : Nat
deriving Repr, DecidableEq

def speakerName (p : Participant) : Except Unit (List Char) :=
  match p.speaker_name_variants with
  | none => .ok "Unknown".data
  | some [] => .error ()
  | some (n :: _) => .ok n

def collectAttrs : List Participant → Except Unit (List (List Char × List Char))
  | [] => .ok []
  | p :: rest =>
    match speakerName p with
    | .error e => .error e
    | .ok name =>
      match collectAttrs rest with
      | .error e => .error e
      | .ok l => .ok ((p.speaker_attributions.getD []).map (fun a => (name, a)) ++ l)

def buildMatches (text : List Char) : List (List Char × List Char) → List Occurrence
  | [] => []
  | pr :: rest =>
    (occurrencesOf text pr.2).map (fun i => ⟨pr.1, i, i + pr.2.length⟩) ++ buildMatches text rest

/-- Stable insertion keeping discovery order among equal start offsets
(Python's `list.sort` is stable). -/
def insertByStart (m : Occurrence) : List Occurrence → List Occurrence
  | [] => [m]
  | x :: xs => if m.start < x.start then m :: x :: xs else x :: insertByStart m xs

def sortByStart (l : List Occurrence) : List Occurrence :=
  l.foldl (fun acc m => insertByStart m acc) []

/-- Lines 1028-1048 of the source: one utterance per occurrence; the text
between the end of an occurrence and the start of the next (`.strip()`ed),
and for the last occurrence the text to the end of the document. -/
def partitionUtterances (text : List Char) : List Occurrence → List URec
  | [] => []
  | [m] => [⟨m.speaker_name, pyStrip (text.drop m.stop), none⟩]
  | m :: m' :: rest =>
    ⟨m.speaker_name, pyStrip (slice text m.stop m'.start), none⟩ ::
      partitionUtterances text (m' :: rest)

def get_utterances (text : List Char) (api : Option ApiResponse) : Except Unit (List URec) :=
  match api with
  | none => .ok []
  | some a =>
    match a.parsed_json with
    | none => .ok []
    | some pj =>
      match pj.participants with
      | none => .ok []
      | some ps =>
        match collectAttrs ps with
        | .error e => .error e
        | .ok attrs =>
          if attrs.isEmpty then .ok [] else
          let deduped := attrs.map (fun pr => (pr.1, remove_leading_duplicate_tags pr.2))
          let sorted := sortByStart (buildMatches text deduped)
          if sorted.isEmpty then .ok [] else
          .ok (partitionUtterances text sorted)

/-! ### `clean_utterances`

`uuid.uuid4()` is modelled by a caller-supplied injection-free stream
`fresh : Nat → List Char`, applied at successive indices.  The dynamic
patterns `header_pattern`/`footer_pattern` are compiled by `re.sub`; for
metacharacter-free patterns (the case used below) this is literal
case-insensitive removal of every non-overlapping occurrence, embedded by
`subLiteralCI`. -/

structure CleanResp where
  header_pattern : Option (List Char) := none
  footer_pattern : Option (List Char) := none
deriving Repr, DecidableEq

/-- `re.sub(r'<[^>]*>', '', s)`. -/
def angleSub (s : List Char) : List Char :=
  rewrite (fun t =>
    match t with
    | '<' :: r =>
      let b := runLen (fun c => c != '>') r
      match r.drop b with
      | '>' :: _ => some ([], 1 + b)
      | _ => none
    | _ => none) s

/-- `re.sub(r'\([^)]*\)', '', s)`. -/
def parenSub (s : List Char) : List Char :=
  rewrite (fun t =>
    match t with
    | '(' :: r =>
      let b := runLen (fun c => c != ')') r
      match r.drop b with
      | ')' :: _ => some ([], 1 + b)
      | _ => none
    | _ => none) s

/-- `re.sub(r'//[^/]*//', '', s)`. -/
def slashSub (s : List Char) : List Char :=
  rewrite (fun t =>
    match matchLit "//".data t with
    | none => none
    | some r =>
      let b := runLen (fun c => c != '/') r
      match matchLit "//".data (r.drop b) with
      | some _ => some ([], 2 + b + 1)
      | none => none) s

/-- `re.sub(r'\\[^\\]*\\', '', s)`. -/
def backslashSub (s : List Char) : List Char :=
  rewrite (fun t =>
    match t with
    | '\\' :: r =>
      let b := runLen (fun c => c != '\\') r
      match r.drop b with
      | '\\' :: _ => some ([], 1 + b)
      | _ => none
    | _ => none) s

/-- The per-utterance cleaning of the first loop of `clean_utterances`. -/
def cleanText (s : List Char) : List Char :=
  joinSplit (backslashSub (slashSub (parenSub (angleSub s))))

/-- The first loop of `clean_utterances`: clean each utterance, keep an
existing uuid or draw a fresh one. -/
def mainPass (fresh : Nat → List Char) : Nat → List URec → List URec
  | _, [] => []
  | k, u :: rest =>
    match u.uuid with
    | some x => ⟨u.speaker, cleanText u.utterance, some x⟩ :: mainPass fresh k rest
    | none => ⟨u.speaker, cleanText u.utterance, some (fresh k)⟩ :: mainPass fresh (k + 1) rest

/-- `re.sub(r'<(?:TAG_2|TAG_3|TAG_4|BOLD-|-BOLD)>', '', p)`. -/
def stripTagLits (p : List Char) : List Char :=
  rewrite (fun t =>
    if (matchLit "<TAG_2>".data t).isSome || (matchLit "<TAG_3>".data t).isSome ||
        (matchLit "<TAG_4>".data t).isSome || (matchLit "<BOLD->".data t).isSome ||
        (matchLit "<-BOLD>".data t).isSome
    then some ([], 6) else none) p

/-- `re.sub(pat, '', s, flags=re.IGNORECASE)` for a metacharacter-free
`pat` (`re.sub` with an empty pattern leaves `s` unchanged when the
replacement is empty). -/
def subLiteralCI (pat s : List Char) : List Char :=
  if pat.isEmpty then s else
  rewrite (fun t =>
    match matchLitCI pat t with
    | some _ => some ([], pat.length - 1)
    | none => none) s

/-- `utterance['utterance'].strip()` truthiness filter. -/
def nonBlank (u : URec) : Bool := !(pyStrip u.utterance).isEmpty

/-- One appended record of the header/footer loops: `utterance.copy()`
with the pattern removed from the turn text (all other fields, including
the absence of `uuid`, are preserved). -/
def headerRec (p' : List Char) (u : URec) : URec :=
  { u with utterance := subLiteralCI p' u.utterance }

def clean_utterances (fresh : Nat → List Char) (utterances : List URec)
    (resp : CleanResp) : List URec :=
  let us := utterances.filter nonBlank
  let cleaned := mainPass fresh 0 us
  let cleaned :=
    match resp.header_pattern with
    | some p => if p.isEmpty then cleaned else cleaned ++ us.map (headerRec (stripTagLits p))
    | none => cleaned
  match resp.footer_pattern with
  | some p => if p.isEmpty then cleaned else cleaned ++ us.map (headerRec (stripTagLits p))
  | none => cleaned

/-! ### Spec-side definitions for the segmentation partition law -/

/-- The raw (un-stripped) gap texts between consecutive occurrences, the
last one running to the end of the document — the spec's `raw_text`. -/
def specGaps (text : List Char) : List Occurrence → List (List Char)
  | [] => []
  | [m] => [text.drop m.stop]
  | m :: m' :: rest => slice text m.stop m'.start :: specGaps text (m' :: rest)

/-- `occurrence.text + utterance.raw_text`, concatenated in order. -/
def reconstruct (text : List Char) (ms : List Occurrence) : List Char :=
  ((ms.zip (specGaps text ms)).map
    (fun pr => slice text pr.1.start pr.1.stop ++ pr.2)).foldr (fun x acc => x ++ acc) []

def firstStart : List Occurrence → Nat
  | [] => 0
  | m :: _ => m.start

/-! ## Lemmas -/

theorem rewriteF_nil (m : List Char → Option (List Char × Nat)) (fuel : Nat) :
    rewriteF m fuel [] = [] := by
  cases fuel <;> rfl

theorem rewriteF_zero (m : List Char → Option (List Char × Nat)) (s : List Char) :
    rewriteF m 0 s = s := by
  cases s <;> rfl

theorem runLen_replicate (p : Char → Bool) (c : Char) (n : Nat) :
    runLen p (List.replicate n c) = if p c then n else 0 := by
  induction n with
  | zero => simp [runLen]
  | succ k ih =>
    rw [List.replicate_succ]
    by_cases h : p c
    · simp only [runLen, List.takeWhile_cons, h, List.length_cons, if_true] at ih ⊢
      omega
    · simp only [runLen, List.takeWhile_cons, h] at ih ⊢
      simp

/-- A scanner whose matcher fails on every nonempty replicate of `c`
leaves replicates of `c` unchanged. -/
theorem rewriteF_replicate_id (m : List Char → Option (List Char × Nat)) (c : Char)
    (h : ∀ k, m (List.replicate (k + 1) c) = none) :
    ∀ fuel k, rewriteF m fuel (List.replicate k c) = List.replicate k c := by
  intro fuel
  induction fuel with
  | zero => intro k; exact rewriteF_zero m _
  | succ f ih =>
    intro k
    cases k with
    | zero => rfl
    | succ k' =>
      have hm := h k'
      rw [List.replicate_succ] at hm ⊢
      simp only [rewriteF, hm]
      rw [ih k']

theorem pass1Matcher_replicate (c : Char) (hw : pyIsWs c = false) (k : Nat) :
    pass1Matcher (List.replicate (k + 1) c) = none := by
  rw [List.replicate_succ]
  simp [pass1Matcher, runLen_replicate, hw]

theorem pass3Matcher_replicate (c : Char) (hc : ¬c = '.') (k : Nat) :
    pass3Matcher (List.replicate (k + 1) c) = none := by
  have hreps : dotWsRepsF (k + 1) (List.replicate (k + 1) c) = (0, 0) := by
    rw [List.replicate_succ]
    simp [dotWsRepsF, hc]
  simp [pass3Matcher, hreps]

theorem punctRunSub_replicate_del (c : Char) (hc : isPunct3 c = true) (n : Nat) (hn : 3 ≤ n) :
    punctRunSub (List.replicate n c) = [] := by
  obtain ⟨k, rfl⟩ : ∃ k, n = k + 1 := ⟨n - 1, by omega⟩
  have hm : pass2Matcher (List.replicate (k + 1) c) = some ([], k) := by
    rw [List.replicate_succ]
    have hr : runLen (fun d => d == c) (List.replicate k c) = k := by
      rw [runLen_replicate]; simp
    have h3 : 3 ≤ 1 + k := by omega
    simp [pass2Matcher, hc, hr, h3]
  unfold punctRunSub rewrite
  rw [List.length_replicate]
  rw [List.replicate_succ] at hm ⊢
  simp only [rewriteF, hm, List.nil_append]
  rw [List.drop_of_length_le (by simp), rewriteF_nil]

theorem remove_repeating_punctuation_replicate (c : Char) (hc : isPunct3 c = true)
    (hw : pyIsWs c = false) (n : Nat) (hn : 3 ≤ n) :
    remove_repeating_punctuation (List.replicate n c) = [] := by
  unfold remove_repeating_punctuation
  have h1 : punctWsRepSub (List.replicate n c) = List.replicate n c := by
    unfold punctWsRepSub rewrite
    exact rewriteF_replicate_id pass1Matcher c (pass1Matcher_replicate c hw) _ n
  rw [h1, punctRunSub_replicate_del c hc n hn]
  rfl

/-! Slicing lemmas for the segmentation partition law. -/

theorem slice_zero_length (t : List Char) : slice t 0 t.length = t := by
  simp [slice]

theorem drop_eq_slice (t : List Char) (e : Nat) : t.drop e = slice t e t.length := by
  unfold slice
  rw [List.take_of_length_le (by simp)]

theorem slice_append (t : List Char) {a b c : Nat} (hab : a ≤ b) (hbc : b ≤ c) :
    slice t a b ++ slice t b c = slice t a c := by
  unfold slice
  have h1 : t.drop b = (t.drop a).drop (b - a) := by
    rw [List.drop_drop]
    congr 1
    omega
  rw [h1, ← List.take_add]
  congr 1
  omega

theorem specGaps_length (text : List Char) (ms : List Occurrence) :
    (specGaps text ms).length = ms.length := by
  induction ms with
  | nil => rfl
  | cons m tail ih =>
    cases tail with
    | nil => rfl
    | cons m' rest =>
      simp only [specGaps, List.length_cons] at ih ⊢
      omega

theorem partition_eq_zipWith (text : List Char) (ms : List Occurrence) :
    partitionUtterances text ms =
      List.zipWith (fun (m : Occurrence) g => URec.mk m.speaker_name (pyStrip g) none)
        ms (specGaps text ms) := by
  induction ms with
  | nil => rfl
  | cons m tail ih =>
    cases tail with
    | nil => rfl
    | cons m' rest =>
      simp only [partitionUtterances, specGaps, List.zipWith] at ih ⊢
      rw [ih]

theorem reconstruct_single (text : List Char) (m : Occurrence) :
    reconstruct text [m] = slice text m.start m.stop ++ text.drop m.stop := by
  simp [reconstruct, specGaps]

theorem reconstruct_cons (text : List Char) (m m' : Occurrence) (rest : List Occurrence) :
    reconstruct text (m :: m' :: rest) =
      slice text m.start m.stop ++ slice text m.stop m'.start ++
        reconstruct text (m' :: rest) := by
  simp [reconstruct, specGaps]

theorem reconstruct_eq_slice (text : List Char) :
    ∀ ms : List Occurrence, ms ≠ [] →
      (∀ m ∈ ms, m.start ≤ m.stop ∧ m.stop ≤ text.length) →
      List.Chain' (fun a b => a.stop ≤ b.start) ms →
      reconstruct text ms = slice text (firstStart ms) text.length := by
  intro ms
  induction ms with
  | nil => intro h; exact absurd rfl h
  | cons m tail ih =>
    intro _ hval hchain
    cases tail with
    | nil =>
      have hm := hval m (by simp)
      rw [reconstruct_single, drop_eq_slice, slice_append text hm.1 hm.2]
      rfl
    | cons m' rest =>
      have hm := hval m (by simp)
      have hm' := hval m' (by simp)
      have hchain' := (List.chain'_cons.mp hchain)
      have htail : reconstruct text (m' :: rest) = slice text m'.start text.length := by
        refine ih (by simp) ?_ hchain'.2
        intro x hx
        exact hval x (List.mem_cons_of_mem m hx)
      rw [reconstruct_cons, htail]
      rw [List.append_assoc, slice_append text hchain'.1 (le_trans hm'.1 hm'.2),
        slice_append text hm.1 (le_trans hchain'.1 (le_trans hm'.1 hm'.2))]
      rfl

/-! Lemmas about `collectAttrs`, `buildMatches`, and `mainPass`. -/

theorem speakerName_ok (p : Participant) (h : p.speaker_name_variants ≠ some []) :
    ∃ nm, speakerName p = .ok nm := by
  unfold speakerName
  cases hv : p.speaker_name_variants with
  | none => exact ⟨_, rfl⟩
  | some l =>
    cases l with
    | nil => exact absurd hv h
    | cons n t => exact ⟨n, rfl⟩

theorem collectAttrs_ok_of_wf (ps : List Participant)
    (hwf : ∀ p ∈ ps, p.speaker_name_variants ≠ some []) :
    ∃ l, collectAttrs ps = .ok l ∧
      ∀ x ∈ l, ∃ p ∈ ps, x.2 ∈ p.speaker_attributions.getD [] := by
  induction ps with
  | nil => exact ⟨[], rfl, by simp⟩
  | cons p rest ih =>
    obtain ⟨nm, hnm⟩ := speakerName_ok p (hwf p (by simp))
    obtain ⟨l, hl, hprop⟩ := ih (fun q hq => hwf q (List.mem_cons_of_mem p hq))
    refine ⟨(p.speaker_attributions.getD []).map (fun a => (nm, a)) ++ l, ?_, ?_⟩
    · simp only [collectAttrs, hnm, hl]
    · intro x hx
      rcases List.mem_append.mp hx with h | h
      · obtain ⟨a, ha, rfl⟩ := List.mem_map.mp h
        exact ⟨p, by simp, ha⟩
      · obtain ⟨q, hq, hmem⟩ := hprop x h
        exact ⟨q, List.mem_cons_of_mem p hq, hmem⟩

theorem collectAttrs_no_attrs (ps : List Participant)
    (hwf : ∀ p ∈ ps, p.speaker_name_variants ≠ some [])
    (hattr : ∀ p ∈ ps, p.speaker_attributions = none ∨ p.speaker_attributions = some []) :
    collectAttrs ps = .ok [] := by
  induction ps with
  | nil => rfl
  | cons p rest ih =>
    obtain ⟨nm, hnm⟩ := speakerName_ok p (hwf p (by simp))
    have hrest : collectAttrs rest = .ok [] :=
      ih (fun q hq => hwf q (List.mem_cons_of_mem p hq))
        (fun q hq => hattr q (List.mem_cons_of_mem p hq))
    have hget : p.speaker_attributions.getD [] = [] := by
      rcases hattr p (by simp) with h | h <;> rw [h] <;> rfl
    simp only [collectAttrs, hnm, hrest, hget, List.map_nil, List.nil_append]

theorem buildMatches_nil (text : List Char) (l : List (List Char × List Char))
    (h : ∀ pr ∈ l, occurrencesOf text pr.2 = []) :
    buildMatches text l = [] := by
  induction l with
  | nil => rfl
  | cons pr rest ih =>
    simp only [buildMatches]
    rw [h pr (by simp), ih (fun q hq => h q (List.mem_cons_of_mem pr hq))]
    rfl

theorem mainPass_uuid_isSome (fresh : Nat → List Char) :
    ∀ us k, ∀ r ∈ mainPass fresh k us, r.uuid.isSome = true := by
  intro us
  induction us with
  | nil => intro k r hr; simp [mainPass] at hr
  | cons u rest ih =>
    intro k r hr
    cases hu : u.uuid with
    | some x =>
      simp only [mainPass, hu] at hr
      rcases List.mem_cons.mp hr with rfl | h
      · rfl
      · exact ih k r h
    | none =>
      simp only [mainPass, hu] at hr
      rcases List.mem_cons.mp hr with rfl | h
      · rfl
      · exact ih (k + 1) r h

/-- The four absent-or-malformed resolver situations of the claim: no
response, unparsed JSON (`parsed_json` is `None`), no `participants` key,
or no attribution strings at all (the last case additionally requires
every present name-variant list to be non-empty; see the `IndexError`
noted at `speakerName`). -/
def EmptyResolver (api : Option ApiResponse) : Prop :=
  api = none ∨ api = some ⟨none⟩ ∨ api = some ⟨some ⟨none⟩⟩ ∨
    ∃ ps, api = some ⟨some ⟨some ps⟩⟩ ∧
      (∀ p ∈ ps, p.speaker_name_variants ≠ some []) ∧
      (∀ p ∈ ps, p.speaker_attributions = none ∨ p.speaker_attributions = some [])

/-! ## Claims -/

/-- Claim C1: the claim states that the full normalization pipeline is
idempotent (`normalize (normalize x) = normalize x` for all `x`).  The
code violates it: on `"a , , b"` the isolated-punctuation rule
`re.sub(r'\s+([,.;:!?])\s+', ' ', ...)` removes only the first of the two
isolated commas (the scan resumes after the consumed trailing whitespace,
so the second comma is no longer surrounded by whitespace in the same
pass), and a second application of the pipeline removes the second comma:
`normalize "a , , b" = "a , b"` but `normalize (normalize "a , , b") =
"a b"`. -/
theorem c1_normalize_not_idempotent :
    normalize "a , , b".data = "a , b".data ∧
    normalize (normalize "a , , b".data) = "a b".data ∧
    normalize (normalize "a , , b".data) ≠ normalize "a , , b".data := by
  refine ⟨by decide, by decide, by decide⟩

/-- Claim C2, counterexample: the claim states that utterance `i` is the
text between the end of occurrence `i` and the start of occurrence `i + 1`
and that concatenating the occurrence texts with the stored utterance
texts reproduces the document.  The segmenter `.strip()`s each utterance,
so on `"A: hi B: yo"` with attributions `"A:"` (speaker X) and `"B:"`
(speaker Y) the stored first utterance is `"hi"`, not the inter-occurrence
text `" hi "` (`slice text 2 6`), and the concatenation does not
reproduce the document. -/
theorem c2_counterexample :
    get_utterances "A: hi B: yo".data
        (some ⟨some ⟨some [⟨some ["X".data], some ["A:".data]⟩,
          ⟨some ["Y".data], some ["B:".data]⟩]⟩⟩) =
      .ok [⟨"X".data, "hi".data, none⟩, ⟨"Y".data, "yo".data, none⟩] ∧
    "hi".data ≠ slice "A: hi B: yo".data 2 6 ∧
    "A:".data ++ "hi".data ++ "B:".data ++ "yo".data ≠ "A: hi B: yo".data := by
  exact ⟨rfl, by decide, by decide⟩

/-- Claim C2, amended: for every document and every non-empty, sorted,
non-overlapping, in-bounds occurrence list, the segmenter produces exactly
one utterance per occurrence; utterance `i` is the text between the end of
occurrence `i` and the start of occurrence `i + 1` (the last utterance the
text from the end of the last occurrence to the end of the document) with
leading and trailing whitespace stripped; and concatenating each
occurrence's text with the corresponding un-stripped gap text, preceded by
the discarded prefix, reproduces the document exactly. -/
theorem c2_partition_law (text : List Char) (ms : List Occurrence) (hne : ms ≠ [])
    (hval : ∀ m ∈ ms, m.start ≤ m.stop ∧ m.stop ≤ text.length)
    (hchain : List.Chain' (fun a b => a.stop ≤ b.start) ms) :
    (partitionUtterances text ms).length = ms.length ∧
    partitionUtterances text ms =
      List.zipWith (fun (m : Occurrence) g => URec.mk m.speaker_name (pyStrip g) none)
        ms (specGaps text ms) ∧
    slice text 0 (firstStart ms) ++ reconstruct text ms = text := by
  refine ⟨?_, partition_eq_zipWith text ms, ?_⟩
  · rw [partition_eq_zipWith, List.length_zipWith, specGaps_length]
    exact Nat.min_self _
  · rw [reconstruct_eq_slice text ms hne hval hchain]
    have h0 : firstStart ms ≤ text.length := by
      cases ms with
      | nil => exact absurd rfl hne
      | cons m tail => exact le_trans (hval m (by simp)).1 (hval m (by simp)).2
    rw [slice_append text (Nat.zero_le _) h0, slice_zero_length]

/-- Witness for `c2_partition_law` at the two-speaker document
`"A: hi B: yo"` with occurrences `[0, 2)` and `[6, 8)`. -/
theorem c2_partition_law_witness :
    (partitionUtterances "A: hi B: yo".data [⟨"X".data, 0, 2⟩, ⟨"Y".data, 6, 8⟩]).length =
      ([⟨"X".data, 0, 2⟩, ⟨"Y".data, 6, 8⟩] : List Occurrence).length ∧
    partitionUtterances "A: hi B: yo".data [⟨"X".data, 0, 2⟩, ⟨"Y".data, 6, 8⟩] =
      List.zipWith (fun (m : Occurrence) g => URec.mk m.speaker_name (pyStrip g) none)
        [⟨"X".data, 0, 2⟩, ⟨"Y".data, 6, 8⟩]
        (specGaps "A: hi B: yo".data [⟨"X".data, 0, 2⟩, ⟨"Y".data, 6, 8⟩]) ∧
    slice "A: hi B: yo".data 0 (firstStart [⟨"X".data, 0, 2⟩, ⟨"Y".data, 6, 8⟩]) ++
        reconstruct "A: hi B: yo".data [⟨"X".data, 0, 2⟩, ⟨"Y".data, 6, 8⟩] =
      "A: hi B: yo".data :=
  c2_partition_law "A: hi B: yo".data [⟨"X".data, 0, 2⟩, ⟨"Y".data, 6, 8⟩]
    (by decide) (by decide)
    (List.chain'_cons.mpr ⟨by decide, List.chain'_singleton _⟩)

/-- Claim C3: the claim states that `get_operator_attributions` returns a
unique ordered list of operator-candidate strings, one per matched
substring.  The code builds the diagnostic *string* `operator_attributions`
and returns `list(set(...))` of it — a list of its distinct characters.
On `"<TAG_2> Operator"` the single regex match is the whole string, yet
every element of the returned list has length 1 and the matched candidate
substring is not an element. -/
theorem c3_operator_output_is_characters :
    collectF operatorAttrMatcher ("<TAG_2> Operator".data).length "<TAG_2> Operator".data =
      ["<TAG_2> Operator".data] ∧
    (∀ e ∈ get_operator_attributions "<TAG_2> Operator".data, e.length = 1) ∧
    "<TAG_2> Operator".data ∉ get_operator_attributions "<TAG_2> Operator".data := by
  refine ⟨by decide, by decide, by decide⟩

/-- Claim C4: the claim states that lines whose stripped form has one or
fewer visible characters are discarded and do not appear in the extractor
output.  The code appends *every* cleaned line (plus `<TAG_2>`) to
`cleaned_lines_with_tags` — the `> 1` filter only feeds the unused
`cleaned_lines` list — and joins `cleaned_lines_with_tags` into the
output.  On the page `"x\nhello"` the line `"x"` (stripped length 1)
appears in the output. -/
theorem c4_short_line_not_discarded :
    (pyStrip (cleanedLine "x".data)).length ≤ 1 ∧
    text_processing_pipeline ["x\nhello".data] = "x<TAG_2>\nhello<TAG_2>\n<PAGE_BREAK>\n".data ∧
    occurrencesOf (text_processing_pipeline ["x\nhello".data]) "x<TAG_2>".data ≠ [] := by
  refine ⟨by decide, by decide, by decide⟩

/-- Claim C5, counterexample: the claim states that every record returned
by `clean_utterances` contains speaker, utterance and uuid fields.  The
header-pattern loop copies the *original* utterance dicts, which carry no
uuid, so the appended records lack the uuid field. -/
theorem c5_counterexample :
    clean_utterances (fun _ => "u".data) [⟨"X".data, "hello HDR world".data, none⟩]
        ⟨some "HDR".data, none⟩ =
      [⟨"X".data, "hello HDR world".data, some "u".data⟩,
       ⟨"X".data, "hello  world".data, none⟩] ∧
    (clean_utterances (fun _ => "u".data) [⟨"X".data, "hello HDR world".data, none⟩]
        ⟨some "HDR".data, none⟩).map URec.uuid = [some "u".data, none] := by
  exact ⟨rfl, rfl⟩

/-- Claim C5, amended: for every utterance list and non-empty
`header_pattern`, `clean_utterances` appends — in addition to (not
replacing) the already-cleaned records — one additional record per
original non-blank utterance, whose turn text has the tag-stripped pattern
removed case-insensitively (regex removal; literal for metacharacter-free
patterns); records of the main cleaning pass all carry a uuid, while each
appended record keeps the original utterance's uuid field (absent when the
original had none). -/
theorem c5_header_appends (fresh : Nat → List Char) (utts : List URec) (p : List Char)
    (hp : p ≠ []) :
    clean_utterances fresh utts ⟨some p, none⟩ =
      clean_utterances fresh utts ⟨none, none⟩ ++
        (utts.filter nonBlank).map (headerRec (stripTagLits p)) ∧
    (∀ r ∈ clean_utterances fresh utts ⟨none, none⟩, r.uuid.isSome = true) ∧
    (∀ u ∈ utts.filter nonBlank, (headerRec (stripTagLits p) u).uuid = u.uuid) := by
  have hpe : p.isEmpty = false := by
    cases p with
    | nil => exact absurd rfl hp
    | cons c r => rfl
  refine ⟨?_, ?_, ?_⟩
  · simp [clean_utterances, hpe]
  · intro r hr
    exact mainPass_uuid_isSome fresh (utts.filter nonBlank) 0 r hr
  · intro u _
    rfl

/-- Witness for `c5_header_appends` with one utterance and the header
pattern `"H"`. -/
theorem c5_header_appends_witness :
    clean_utterances (fun _ => "u".data) [⟨"Y".data, "a H b".data, none⟩]
        ⟨some "H".data, none⟩ =
      clean_utterances (fun _ => "u".data) [⟨"Y".data, "a H b".data, none⟩] ⟨none, none⟩ ++
        ([⟨"Y".data, "a H b".data, none⟩].filter nonBlank).map
          (headerRec (stripTagLits "H".data)) ∧
    (∀ r ∈ clean_utterances (fun _ => "u".data) [⟨"Y".data, "a H b".data, none⟩] ⟨none, none⟩,
      r.uuid.isSome = true) ∧
    (∀ u ∈ [⟨"Y".data, "a H b".data, none⟩].filter nonBlank,
      (headerRec (stripTagLits "H".data) u).uuid = u.uuid) :=
  c5_header_appends (fun _ => "u".data) [⟨"Y".data, "a H b".data, none⟩] "H".data (by decide)

/-- Claim C6: the claim (and the comment above the function) states
`format_spaced_headers "Q 2 2 0 2 3  E A R N I N G S" = "Q2 2023 EARNINGS"`.
The pattern only admits uppercase letters `[A-Z]` in a spaced run, so the
digit part is never matched: only `"E A R N I N G S"` is condensed and the
result is `"Q 2 2 0 2 3  EARNINGS"`. -/
theorem c6_spaced_header_digits :
    format_spaced_headers "Q 2 2 0 2 3  E A R N I N G S".data =
      "Q 2 2 0 2 3  EARNINGS".data ∧
    format_spaced_headers "Q 2 2 0 2 3  E A R N I N G S".data ≠ "Q2 2023 EARNINGS".data := by
  refine ⟨by decide, by decide⟩

/-- Claim C7, counterexample: the claim states that runs of fewer than
three repeated punctuation characters are not deleted, but the third rule
`re.sub(r'([.]\s*){2,}', '', ...)` deletes a run of just two dots:
`remove_repeating_punctuation "a..b" = "ab"`. -/
theorem c7_counterexample :
    remove_repeating_punctuation "a..b".data = "ab".data ∧
    remove_repeating_punctuation "a..b".data ≠ "a..b".data := by
  refine ⟨by decide, by decide⟩

/-- Claim C7, amended: contiguous runs of 3 or more repeated `.`, `!` or
`?` are deleted (for whitespace-interleaved runs, deletion requires the
same punctuation-plus-gap unit to repeat, as in `"! ! ! "` but not
`"! ! !"`); in addition a contiguous run of just two dots is deleted,
while runs of two `!` or two `?` and single marks are preserved. -/
theorem c7_amended (n : Nat) (hn : 3 ≤ n) :
    (remove_repeating_punctuation (List.replicate n '.') = [] ∧
     remove_repeating_punctuation (List.replicate n '!') = [] ∧
     remove_repeating_punctuation (List.replicate n '?') = []) ∧
    remove_repeating_punctuation "..".data = [] ∧
    remove_repeating_punctuation "!!".data = "!!".data ∧
    remove_repeating_punctuation "??".data = "??".data ∧
    remove_repeating_punctuation ".".data = ".".data ∧
    remove_repeating_punctuation "! ! ! ".data = [] ∧
    remove_repeating_punctuation "! ! !".data = "! ! !".data := by
  refine ⟨⟨remove_repeating_punctuation_replicate '.' (by decide) (by decide) n hn,
      remove_repeating_punctuation_replicate '!' (by decide) (by decide) n hn,
      remove_repeating_punctuation_replicate '?' (by decide) (by decide) n hn⟩,
    by decide, by decide, by decide, by decide, by decide, by decide⟩

/-- Witness for `c7_amended` at `n = 3`. -/
theorem c7_amended_witness :
    (remove_repeating_punctuation (List.replicate 3 '.') = [] ∧
     remove_repeating_punctuation (List.replicate 3 '!') = [] ∧
     remove_repeating_punctuation (List.replicate 3 '?') = []) ∧
    remove_repeating_punctuation "..".data = [] ∧
    remove_repeating_punctuation "!!".data = "!!".data ∧
    remove_repeating_punctuation "??".data = "??".data ∧
    remove_repeating_punctuation ".".data = ".".data ∧
    remove_repeating_punctuation "! ! ! ".data = [] ∧
    remove_repeating_punctuation "! ! !".data = "! ! !".data :=
  c7_amended 3 (by decide)

/-- Claim C8, counterexample: the claim states that two adjacent
all-uppercase tokens with an optional middle-initial token between them
are converted to title case.  With a single space on each side of the
initial, the two `\s+` of the optional group and of group 3 cannot share
the one whitespace character, so `"JOHN A. SMITH"` is left entirely
unchanged. -/
theorem c8_counterexample :
    normalize_adjacent_uppercase_words "JOHN A. SMITH".data = "JOHN A. SMITH".data ∧
    normalize_adjacent_uppercase_words "JOHN A. SMITH".data ≠ "John A. Smith".data := by
  refine ⟨by decide, by decide⟩

/-- Claim C8, amended: each non-overlapping match converts exactly two
adjacent all-uppercase tokens (each of length at least 2) to title case,
so the third of three adjacent tokens is left unchanged; the
middle-initial form only matches when at least two whitespace characters
follow the initial; the literal standalone token `OPERATOR` is mapped to
`Operator` wherever it occurs. -/
theorem c8_amended :
    normalize_adjacent_uppercase_words "JOHN SMITH".data = "John Smith".data ∧
    normalize_adjacent_uppercase_words "AAA BBB CCC".data = "Aaa Bbb CCC".data ∧
    normalize_adjacent_uppercase_words "JOHN A.  SMITH".data = "John A.  Smith".data ∧
    normalize_adjacent_uppercase_words "OPERATOR".data = "Operator".data ∧
    normalize_adjacent_uppercase_words "the OPERATOR said".data = "the Operator said".data ∧
    normalize_adjacent_uppercase_words "OPERATORS".data = "OPERATORS".data := by
  refine ⟨by decide, by decide, by decide, by decide, by decide, by decide⟩

/-- Claim C9, counterexample: the claim states that when the resolver's
attribution strings have zero literal occurrences in the document the
utterance list is empty.  The segmenter first collapses duplicated
adjacent leading markers; `"<TAG_2> <TAG_2> X"` never occurs literally in
`"<TAG_2> X hello"`, but its collapsed form `"<TAG_2> X"` does, so one
utterance is produced. -/
theorem c9_counterexample :
    occurrencesOf "<TAG_2> X hello".data "<TAG_2> <TAG_2> X".data = [] ∧
    get_utterances "<TAG_2> X hello".data
        (some ⟨some ⟨some [⟨some ["X".data], some ["<TAG_2> <TAG_2> X".data]⟩]⟩⟩) =
      .ok [⟨"X".data, "hello".data, none⟩] ∧
    ([⟨"X".data, "hello".data, none⟩] : List URec) ≠ [] := by
  refine ⟨by decide, rfl, by simp⟩

/-- Claim C9, amended: for every document and participant list whose
attribution strings, *after collapsing runs of identical adjacent leading
structural markers*, have zero literal occurrences in the document (and
whose present name-variant lists are non-empty), the segmenter returns an
empty utterance list and no error. -/
theorem c9_zero_occurrence (text : List Char) (ps : List Participant)
    (hwf : ∀ p ∈ ps, p.speaker_name_variants ≠ some [])
    (hocc : ∀ p ∈ ps, ∀ a ∈ p.speaker_attributions.getD [],
      occurrencesOf text (remove_leading_duplicate_tags a) = []) :
    get_utterances text (some ⟨some ⟨some ps⟩⟩) = .ok [] := by
  obtain ⟨l, hl, hprop⟩ := collectAttrs_ok_of_wf ps hwf
  have hbm : buildMatches text (l.map (fun pr => (pr.1, remove_leading_duplicate_tags pr.2))) = [] := by
    apply buildMatches_nil
    intro pr hpr
    obtain ⟨x, hx, rfl⟩ := List.mem_map.mp hpr
    obtain ⟨p, hp, hmem⟩ := hprop x hx
    exact hocc p hp x.2 hmem
  simp only [get_utterances, hl]
  cases l with
  | nil => rfl
  | cons x xs =>
    rw [hbm]
    rfl

/-- Witness for `c9_zero_occurrence`: the attribution `"ZZZ"` does not
occur in `"hello"`. -/
theorem c9_zero_occurrence_witness :
    get_utterances "hello".data (some ⟨some ⟨some [⟨some ["X".data], some ["ZZZ".data]⟩]⟩⟩) =
      .ok [] :=
  c9_zero_occurrence "hello".data [⟨some ["X".data], some ["ZZZ".data]⟩] (by decide) (by decide)

/-- Claim C10, counterexample: the claim states that `get_utterances`
returns `[]` without raising for every absent or malformed resolver
response; but when a participant has a *present, empty*
`speaker_name_variants` list, `participant.get("speaker_name_variants",
["Unknown"])[0]` raises `IndexError` even though no attribution string is
carried. -/
theorem c10_counterexample :
    get_utterances "hello".data (some ⟨some ⟨some [⟨some [], none⟩]⟩⟩) = .error () := rfl

/-- Claim C10, amended: `get_utterances` returns `[]` without error when
the response is `None`, when its `parsed_json` is `None`, when the parsed
JSON has no `participants` key, or when no participant carries any
attribution string — the last case provided every present name-variant
list is non-empty (an explicitly empty one raises `IndexError`). -/
theorem c10_malformed_response (text : List Char) (api : Option ApiResponse)
    (h : EmptyResolver api) : get_utterances text api = .ok [] := by
  rcases h with rfl | rfl | rfl | ⟨ps, rfl, hwf, hattr⟩
  · rfl
  · rfl
  · rfl
  · simp only [get_utterances, collectAttrs_no_attrs ps hwf hattr]
    rfl

/-- Witness for `c10_malformed_response`: an absent response, and a
participant list with no attributions. -/
theorem c10_malformed_response_witness :
    get_utterances "hi".data none = .ok [] ∧
    get_utterances "hi".data (some ⟨some ⟨some [⟨some ["X".data], some []⟩]⟩⟩) = .ok [] :=
  ⟨c10_malformed_response "hi".data none (Or.inl rfl),
   c10_malformed_response "hi".data (some ⟨some ⟨some [⟨some ["X".data], some []⟩]⟩⟩)
     (Or.inr (Or.inr (Or.inr ⟨[⟨some ["X".data], some []⟩], rfl, by decide, by decide⟩)))⟩

end PdfV4
